import Mathlib

/-!
Verification development for the woot-deals pipeline (src/main.py).

The deal-discovery pipeline is shallowly embedded: Python dicts carrying
string-valued text/identifier fields become association lists of string
pairs, the HTTP responses of the detail endpoint become an explicit
response type, sleeps are recorded as rational durations, and the
orchestrator `check_woot_deals` becomes a pure function returning a
record of its observable effects (result string, in-memory seen list,
save attempts, the deals passed to notification, and the enriched set).
-/

namespace WootDeals

/-- A Python dict with string keys and string values, as used for feed
items and detailed offers (`main.py` passes these around as `dict`).
Represented as an association list; lookup takes the first binding. -/
abbrev Deal : Type := List (String × String)

/-- Python `d.get(k)` on a dict: `none` when the key is absent. -/
def dictGet (d : Deal) (k : String) : Option String :=
  match d with
  | [] => none
  | (k2, v) :: rest => if k2 = k then some v else dictGet rest k

/-- Python `d[k] = v` on a dict: replace the value of an existing key in place,
otherwise append the new binding at the end (Python dict semantics). -/
def dictSet (d : Deal) (k : String) (v : String) : Deal :=
  match d with
  | [] => [(k, v)]
  | (k2, v2) :: rest => if k2 = k then (k2, v) :: rest else (k2, v2) :: dictSet rest k v

/-- Python `d.get(k, "")`: the empty string stands for an absent field, exactly
as in `main.py` (`deal.get("Title", "")`). -/
def pyGetStr (d : Deal) (k : String) : String := (dictGet d k).getD ""

/-- Python's `str.lower()` character by character (the keywords and the
checked fields are ASCII, where `Char.toLower` agrees with Python). -/
def lowerStr (s : String) : String := String.mk (s.data.map Char.toLower)

/-- Does the character list `hay` start with `needle`? -/
def hasPrefB : List Char → List Char → Bool
  | [], _ => true
  | _ :: _, [] => false
  | a :: as, b :: bs => a == b && hasPrefB as bs

/-- Does `hay` contain `needle` as a contiguous segment? -/
def containsSeg : List Char → List Char → Bool
  | n, [] => hasPrefB n []
  | n, h :: hs => hasPrefB n (h :: hs) || containsSeg n hs

/-- Python's `needle in hay` on strings (substring test). -/
def strIn (needle hay : String) : Bool := containsSeg needle.data hay.data

/-- The `KEYWORDS` list from `main.py` line 26. -/
def KEYWORDS : List String :=
  ["kindle", "ereader", "e-reader", "e-ink", "kobo", "nook", "eink", "treadmill", "walking pad"]

/-- Embeds `any(keyword.lower() in text.lower() for keyword in KEYWORDS)`. -/
def kwHit (text : String) : Bool :=
  KEYWORDS.any (fun k => strIn (lowerStr k) (lowerStr text))

/-- Embeds `is_matching_deal` (`main.py` 551-588): the full match filter.  The
five fields are fetched with `deal.get(field, "") or ""`; since our dict
values are strings, `or ""` is the identity on the fetched value. -/
def is_matching_deal (deal : Deal) : Bool :=
  kwHit (pyGetStr deal "Title") ||
  kwHit (pyGetStr deal "WriteUpBody") ||
  kwHit (pyGetStr deal "Features") ||
  kwHit (pyGetStr deal "Subtitle") ||
  kwHit (pyGetStr deal "Snippet")

/-- The `fields_to_check` list from `improved_title_contains_keywords`
(`main.py` 800-810). -/
def fields_to_check : List String :=
  ["Title", "title", "Description", "description", "Subtitle", "subtitle",
   "Snippet", "snippet", "Summary", "summary", "Name", "name",
   "ProductName", "productName", "WriteUpBody", "writeUpBody",
   "Features", "features"]

/-- Embeds `improved_title_contains_keywords` (`main.py` 791-825): the
prefilter.  The item is always a dict here, so the `isinstance` guards
hold; `value and isinstance(value, str)` reduces to the non-emptiness
test; the early `return True` is `List.any`. -/
def improved_title_contains_keywords (item : Deal) : Bool :=
  fields_to_check.any (fun f =>
    let v := pyGetStr item f
    (v != "") && KEYWORDS.any (fun k => strIn (lowerStr k) (lowerStr v)))

/-! ## Identifier resolution -/

/-- Embeds `deal.get("Id", deal.get("OfferId"))` (`filter_deals`, and the
processed/matched id bookkeeping in `check_woot_deals`): `Id` first,
falling back to `OfferId`. -/
def dealIdOf (d : Deal) : Option String :=
  match dictGet d "Id" with
  | some v => some v
  | none => dictGet d "OfferId"

/-- The prefilter loop of `check_woot_deals` (884-890) reads the id the
other way round: `OfferId` first, falling back to `Id`. -/
def feedIdOf (item : Deal) : Option String :=
  match dictGet item "OfferId" with
  | some v => some v
  | none => dictGet item "Id"

/-- Holds when the deal resolves to a non-empty identifier (Python
truthiness of `deal.get("Id", deal.get("OfferId"))`). -/
def hasRealId (d : Deal) : Bool := (dealIdOf d).getD "" != ""

/-! ## Rate limiting configuration (`main.py` 37-41) -/

def MAX_RETRIES : Nat := 5

def INITIAL_RETRY_DELAY : ℚ := 5

def MAX_RETRY_DELAY : ℚ := 60

/-! ## Detail fetcher (`fetch_detailed_offers`, `main.py` 444-549) -/

/-- One HTTP exchange with the getoffers endpoint, as the retry loop
distinguishes them: a 200 whose JSON body is a list, a 200 whose body is
not a list (logged and not accumulated), a 429, any other status, or a
raised exception. -/
inductive Resp where
  | ok (offers : List Deal)
  | okNonList
  | rateLimited
  | errStatus
  | exc
deriving DecidableEq, Repr

/-- What one batch's retry loop produced: the accumulated offers (empty
when abandoned or when the 200 body was not a list), whether the loop
ended in success (`completed`) or retry exhaustion, the number of
requests made, and the durations passed to `time.sleep` between
retries, in order. -/
structure BatchRes where
  offers : List Deal
  completed : Bool
  attempts : Nat
  sleeps : List ℚ
deriving DecidableEq, Repr

/-- The per-batch `while retry_count <= MAX_RETRIES` loop of
`fetch_detailed_offers` (475-546).  `fuel` is `MAX_RETRIES - retry_count`:
on a non-success response the code increments `retry_count` and, if it is
still at most `MAX_RETRIES` (`fuel > 0` here), sleeps the current
`retry_delay` and retries with
`retry_delay = min(MAX_RETRY_DELAY, retry_delay * 2) + jitter`
(the cap is applied to the doubled delay before the jitter is added);
otherwise it abandons the batch.  429, other error statuses and raised
exceptions take the identical retry path. -/
def runBatchGo (respond : Nat → Resp) (jit : Nat → ℚ) :
    Nat → Nat → ℚ → List ℚ → BatchRes
  | 0, attempt, _, sleeps =>
    match respond attempt with
    | .ok l => ⟨l, true, attempt + 1, sleeps⟩
    | .okNonList => ⟨[], true, attempt + 1, sleeps⟩
    | _ => ⟨[], false, attempt + 1, sleeps⟩
  | fuel + 1, attempt, delay, sleeps =>
    match respond attempt with
    | .ok l => ⟨l, true, attempt + 1, sleeps⟩
    | .okNonList => ⟨[], true, attempt + 1, sleeps⟩
    | _ => runBatchGo respond jit fuel (attempt + 1)
        (min MAX_RETRY_DELAY (delay * 2) + jit attempt) (sleeps ++ [delay])

/-- Run one batch: `retry_count = 0`, `retry_delay = INITIAL_RETRY_DELAY`.
`respond n` is the response to the n-th request for this batch, `jit n`
the `random.uniform(0, 1)` jitter drawn after the n-th request fails. -/
def runBatch (respond : Nat → Resp) (jit : Nat → ℚ) : BatchRes :=
  runBatchGo respond jit MAX_RETRIES 0 INITIAL_RETRY_DELAY []

/-- The `offer_ids[i:i+10]` slicing loop: split a list into chunks of 10
(`batch_size = 10` at both `main.py` 453 and 921).  Driven by a length
fuel so that it is structurally recursive. -/
def chunksGo : Nat → List String → List (List String)
  | 0, _ => []
  | _, [] => []
  | fuel + 1, l@(_ :: _) => l.take 10 :: chunksGo fuel (l.drop 10)

def chunks10 (l : List String) : List (List String) := chunksGo l.length l

/-- The per-batch results of `fetch_detailed_offers ids`: one `BatchRes`
per chunk, in order.  `respond b n` / `jit b n` address batch `b`,
request `n`. -/
def batchReports (ids : List String) (respond : Nat → Nat → Resp)
    (jit : Nat → Nat → ℚ) : List BatchRes :=
  (chunks10 ids).enum.map (fun p => runBatch (respond p.1) (jit p.1))

/-- Embeds `fetch_detailed_offers` (444-549): `all_detailed_offers` is extended
only by 200-list responses; abandoned batches contribute nothing, and
processing always moves on to the next batch.  (The inter-batch spacing
sleep at 468-473 has no observable effect on the returned data and is
not recorded.) -/
def fetch_detailed_offers (ids : List String) (respond : Nat → Nat → Resp)
    (jit : Nat → Nat → ℚ) : List Deal :=
  (batchReports ids respond jit).foldl (fun acc r => acc ++ r.offers) []

/-! ## Feed fetcher (`fetch_feed`, `main.py` 375-442) -/

/-- One feed page request as `fetch_feed` discriminates it: a 200 dict
response (with optional `TotalPages` and optional `Items` list — a
non-dict 200 body behaves exactly like a dict carrying neither key), a
non-200 status (breaks the loop, keeping the accumulated items), or a
raised exception (caught by the function-level handler, which returns
an empty list). -/
inductive PageResult where
  | ok (totalPages : Option Nat) (items : Option (List Deal))
  | httpError
  | exc
deriving DecidableEq, Repr

/-- Item normalization inside `fetch_feed` (418-429): when `OfferId` is
present its value overwrites `Id`; otherwise, when `Id` is present, its
value is mirrored into `OfferId`. -/
def normalizeItem (item : Deal) : Deal :=
  match dictGet item "OfferId" with
  | some ov => dictSet item "Id" ov
  | none =>
    match dictGet item "Id" with
    | some iv => dictSet item "OfferId" iv
    | none => item

/-- The `while current_page <= total_pages` loop of `fetch_feed`.
`pages p` is the response to the request for page `p`; `total` starts at
1 and is raised to `max total TotalPages` whenever a page reports one.
On a non-200 status the loop breaks and the accumulated list is
returned; on an exception the whole function returns `[]`, discarding
the accumulated list.  `fuel` bounds the iterations (the source loop is
unbounded if the server keeps raising `TotalPages`); exhausted fuel
returns the accumulated list. -/
def feedGo (pages : Nat → PageResult) : Nat → Nat → Nat → List Deal → List Deal
  | 0, _, _, acc => acc
  | fuel + 1, current, total, acc =>
    if total < current then acc
    else
      match pages current with
      | .httpError => acc
      | .exc => []
      | .ok tp its =>
        feedGo pages fuel (current + 1)
          (match tp with | some t => max total t | none => total)
          (acc ++ (its.getD []).map normalizeItem)

/-- Embeds `fetch_feed`: start at page 1 with `total_pages = 1`. -/
def fetch_feed (pages : Nat → PageResult) (fuel : Nat) : List Deal :=
  feedGo pages fuel 1 1 []

/-! ## Match filter (`filter_deals`, `main.py` 590-611) -/

/-- The body of the `for deal in deals` loop of `filter_deals`: drop a
record whose `deal.get("Id", deal.get("OfferId"))` is falsy (absent or
empty), drop already-seen ids, keep records passing `is_matching_deal`. -/
def filterStep (seen : List String) (acc : List Deal) (deal : Deal) : List Deal :=
  match dealIdOf deal with
  | none => acc
  | some uid =>
    if uid = "" then acc
    else if uid ∈ seen then acc
    else if is_matching_deal deal then acc ++ [deal] else acc

/-- Embeds `filter_deals(deals, seen_deals)` (`main.py` 590-611), preserving
input order. -/
def filter_deals (deals : List Deal) (seen : List String) : List Deal :=
  deals.foldl (filterStep seen) []

/-! ## Notification and persistence -/

/-- Observable outcome of `send_notifications` (`main.py` 681-756):
whether the messages went out, and whether an exception propagated to
the caller. -/
structure NotifyOutcome where
  sent : Bool
  raised : Bool
deriving DecidableEq, Repr

/-- Embeds `send_notifications(deals)`: with no deals it returns immediately;
otherwise the whole SMTP session sits inside `try: ... except Exception:
logging.error(...)` (754-756), so a transport fault (`transportOk =
false`) is caught and logged — the function returns normally in every
case and never propagates an exception (`raised = false` always). -/
def send_notifications (deals : List Deal) (transportOk : Bool) : NotifyOutcome :=
  if deals.isEmpty then ⟨false, false⟩
  else if transportOk then ⟨true, false⟩
  else ⟨false, false⟩

/-- Embeds `save_seen_deals` (357-373): it returns `True` on success and `False`
when the storage client is unavailable or the upload raises (the
exception is caught inside).  `storeOk` is whether the store is
reachable.  Every call site in `check_woot_deals` discards this return
value. -/
def save_seen_deals (storeOk : Bool) (_seen : List String) : Bool :=
  storeOk

/-! ## Pipeline orchestrator (`check_woot_deals`, `main.py` 827-999) -/

/-- Embeds `seen_deals.append(x)` guarded by `if x not in seen_deals`. -/
def addNew (s : List String) (x : String) : List String :=
  if x ∈ s then s else s ++ [x]

/-- One step of `uid = deal.get("Id", deal.get("OfferId")); if uid and
uid not in acc: acc.append(uid)`. -/
def addIdStep (acc : List String) (d : Deal) : List String :=
  match dealIdOf d with
  | none => acc
  | some uid => if uid = "" then acc else addNew acc uid

/-- The loop `for deal in ds: ...` over `addIdStep` — used both for
`processed_deal_ids` (948-951) and for adding matched ids to
`seen_deals` (962-965). -/
def addDealIds (base : List String) (ds : List Deal) : List String :=
  ds.foldl addIdStep base

/-- Embeds `for x in ids: if x not in seen: seen.append(x)` (968-970, 986-993). -/
def seenSweep (seen : List String) (ids : List String) : List String :=
  ids.foldl addNew seen

/-- One iteration of the prefilter loop of `check_woot_deals` (884-906)
over the state `(all_offer_ids, potential_matches)`: resolve the id
(`OfferId` first), skip falsy ids before any bookkeeping, append to
`all_offer_ids`, skip seen ids, and record prefilter hits. -/
def prefilterStep (seen : List String) (st : List String × List String)
    (item : Deal) : List String × List String :=
  match feedIdOf item with
  | none => st
  | some oid =>
    if oid = "" then st
    else
      let allIds := st.1 ++ [oid]
      if oid ∈ seen then (allIds, st.2)
      else if improved_title_contains_keywords item then (allIds, st.2 ++ [oid])
      else (allIds, st.2)

/-- The whole prefilter pass: `(all_offer_ids, potential_matches)`. -/
def prefilterFeed (seen : List String) (feedItems : List Deal) :
    List String × List String :=
  feedItems.foldl (prefilterStep seen) ([], [])

/-- The batch loop of `check_woot_deals` (927-951): for each chunk of 10
potential matches, fetch details (`details b` / `djit b` address the
b-th chunk), filter against the seen set (unchanged during the loop),
extend `all_matching_deals`, extend `processed_deal_ids`, and (third
component) the concatenation of every batch's detailed offers — the
run's enriched set. -/
def enrichStep (seen : List String) (details : Nat → Nat → Nat → Resp)
    (djit : Nat → Nat → Nat → ℚ)
    (acc : List Deal × List String × List Deal) (p : Nat × List String) :
    List Deal × List String × List Deal :=
  let detailed := fetch_detailed_offers p.2 (details p.1) (djit p.1)
  (acc.1 ++ filter_deals detailed seen,
   addDealIds acc.2.1 detailed,
   acc.2.2 ++ detailed)

def enrichLoop (seen : List String) (details : Nat → Nat → Nat → Resp)
    (djit : Nat → Nat → Nat → ℚ) (pots : List String) :
    List Deal × List String × List Deal :=
  ((chunks10 pots).enum).foldl (enrichStep seen details djit) ([], [], [])

/-- The observable effects of one `check_woot_deals` run: the returned
outcome string, the final in-memory `seen_deals` list, the arguments of
every `save_seen_deals` call in order, the deal list passed to
`send_notifications` (`none` when it was not called), and the enriched
set (all detailed offers fetched). -/
structure RunOutcome where
  result : String
  seen : List String
  saveAttempts : List (List String)
  notified : Option (List Deal)
  enriched : List Deal
deriving DecidableEq, Repr

/-- Embeds `check_woot_deals` (`main.py` 827-999), regular operation (the
diagnostic `test_mode` shortcuts and the environment-variable gate are
out of scope; `seen0` is what `load_seen_deals` returned, `feedItems`
what `fetch_feed` returned).  Note that the boolean result of
`save_seen_deals` is discarded at every call site, and that the
`except` branch at 979-983 is reachable only if `send_notifications`
raises. -/
def check_woot_deals (seen0 : List String) (feedItems : List Deal)
    (details : Nat → Nat → Nat → Resp) (djit : Nat → Nat → Nat → ℚ)
    (transportOk : Bool) (storeOk : Bool) : RunOutcome :=
  if feedItems.isEmpty then
    ⟨"No feed items found", seen0, [], none, []⟩
  else
    let ap := prefilterFeed seen0 feedItems
    if ap.2.isEmpty then
      let seen1 := seen0 ++ ap.1.filter (fun i => !(seen0.contains i))
      let _ := save_seen_deals storeOk seen1
      ⟨"No matching deals found.", seen1, [seen1], none, []⟩
    else
      let mpe := enrichLoop seen0 details djit ap.2
      if mpe.1.isEmpty then
        let seen2 := seenSweep (seenSweep seen0 mpe.2.1) ap.1
        let _ := save_seen_deals storeOk seen2
        ⟨"No new matching deals found.", seen2, [seen2], none, mpe.2.2⟩
      else
        let notifRes := send_notifications mpe.1 transportOk
        if notifRes.raised then
          ⟨"Error sending notifications", seen0, [], some mpe.1, mpe.2.2⟩
        else
          let seen2 := seenSweep (addDealIds seen0 mpe.1) mpe.2.1
          let _ := save_seen_deals storeOk seen2
          ⟨"Found and notified about " ++ toString mpe.1.length ++ " new deals",
           seen2, [seen2], some mpe.1, mpe.2.2⟩

/-! ## Dictionary lemmas -/

theorem dictGet_dictSet_self (d : Deal) (k v : String) :
    dictGet (dictSet d k v) k = some v := by
  induction d with
  | nil => simp [dictGet, dictSet]
  | cons p rest ih =>
    obtain ⟨k2, v2⟩ := p
    by_cases h : k2 = k
    · simp [dictGet, dictSet, h]
    · simp [dictGet, dictSet, h, ih]

theorem dictGet_dictSet_other (d : Deal) (k v k2 : String) (h : k2 ≠ k) :
    dictGet (dictSet d k v) k2 = dictGet d k2 := by
  induction d with
  | nil =>
    have hk : ¬k = k2 := fun hh => h hh.symm
    simp [dictGet, dictSet, hk]
  | cons p rest ih =>
    obtain ⟨k3, v3⟩ := p
    by_cases h3 : k3 = k
    · subst h3
      have hk : ¬k3 = k2 := fun hh => h hh.symm
      simp [dictGet, dictSet, hk]
    · by_cases h4 : k3 = k2
      · subst h4
        simp [dictGet, dictSet, h3, h]
      · simp [dictGet, dictSet, h3, h4, ih]

/-! ## Keyword-filter lemmas -/

theorem containsSeg_nil_of_ne {n : List Char} (hn : n ≠ []) :
    containsSeg n [] = false := by
  cases n with
  | nil => exact absurd rfl hn
  | cons a as => rfl

theorem strIn_hay_ne_nil {needle hay : String}
    (h : strIn needle hay = true) (hn : needle.data ≠ []) : hay.data ≠ [] := by
  intro hh
  unfold strIn at h
  rw [hh] at h
  rw [containsSeg_nil_of_ne hn] at h
  exact Bool.false_ne_true h

theorem keywords_lower_ne_nil : ∀ k ∈ KEYWORDS, (lowerStr k).data ≠ [] := by
  decide

/-- Any keyword hit on a field that the prefilter also checks makes the
prefilter fire. -/
theorem improved_of_field_hit (item : Deal) (f : String)
    (hf : f ∈ fields_to_check) (h : kwHit (pyGetStr item f) = true) :
    improved_title_contains_keywords item = true := by
  unfold improved_title_contains_keywords
  rw [List.any_eq_true]
  refine ⟨f, hf, ?_⟩
  unfold kwHit at h
  rw [List.any_eq_true] at h
  obtain ⟨k, hk, hkin⟩ := h
  have hkne : (lowerStr k).data ≠ [] := keywords_lower_ne_nil k hk
  have hv : pyGetStr item f ≠ "" := by
    intro he
    have hhay : (lowerStr (pyGetStr item f)).data ≠ [] := strIn_hay_ne_nil hkin hkne
    apply hhay
    rw [he]
    rfl
  show ((pyGetStr item f != "") && KEYWORDS.any
      (fun k => strIn (lowerStr k) (lowerStr (pyGetStr item f)))) = true
  rw [Bool.and_eq_true]
  exact ⟨by simpa [bne_iff_ne] using hv, List.any_eq_true.mpr ⟨k, hk, hkin⟩⟩

/-- C3: every field checked by the full match filter (`Title`,
`WriteUpBody`, `Features`, `Subtitle`, `Snippet`) is among the fields
checked by the prefilter, so — on the same text-field values — a record
passing `is_matching_deal` also passes
`improved_title_contains_keywords`: the prefilter has no false
negatives relative to the match filter. -/
theorem c3_prefilter_recall (deal : Deal) (h : is_matching_deal deal = true) :
    improved_title_contains_keywords deal = true := by
  unfold is_matching_deal at h
  simp only [Bool.or_eq_true] at h
  rcases h with ((((h | h) | h) | h) | h)
  · exact improved_of_field_hit deal "Title" (by decide) h
  · exact improved_of_field_hit deal "WriteUpBody" (by decide) h
  · exact improved_of_field_hit deal "Features" (by decide) h
  · exact improved_of_field_hit deal "Subtitle" (by decide) h
  · exact improved_of_field_hit deal "Snippet" (by decide) h

/-- Witness for C3 at a concrete record passing the match filter. -/
theorem c3_prefilter_recall_witness :
    is_matching_deal [("Title", "Kindle Paperwhite")] = true ∧
    improved_title_contains_keywords [("Title", "Kindle Paperwhite")] = true :=
  ⟨by decide, c3_prefilter_recall _ (by decide)⟩

/-- C10: in `fetch_feed` normalization, `OfferId` takes precedence —
when present, its value overwrites `Id` so both identifier fields equal
the original `OfferId`; only when `OfferId` is absent is `Id` mirrored
into `OfferId`. -/
theorem c10_offerid_precedence (item : Deal) :
    (∀ v, dictGet item "OfferId" = some v →
      dictGet (normalizeItem item) "Id" = some v ∧
      dictGet (normalizeItem item) "OfferId" = some v) ∧
    (dictGet item "OfferId" = none →
      ∀ w, dictGet item "Id" = some w →
        dictGet (normalizeItem item) "OfferId" = some w ∧
        dictGet (normalizeItem item) "Id" = some w) := by
  constructor
  · intro v hv
    unfold normalizeItem
    rw [hv]
    refine ⟨dictGet_dictSet_self item "Id" v, ?_⟩
    rw [dictGet_dictSet_other item "Id" v "OfferId" (by decide)]
    exact hv
  · intro hnone w hw
    unfold normalizeItem
    rw [hnone, hw]
    refine ⟨dictGet_dictSet_self item "OfferId" w, ?_⟩
    rw [dictGet_dictSet_other item "OfferId" w "Id" (by decide)]
    exact hw

/-- Witness for C10 at concrete items, one with both identifier fields
and one with only `Id`. -/
theorem c10_offerid_precedence_witness :
    (dictGet [("OfferId", "X"), ("Id", "Y")] "OfferId" = some "X" ∧
      dictGet (normalizeItem [("OfferId", "X"), ("Id", "Y")]) "Id" = some "X" ∧
      dictGet (normalizeItem [("OfferId", "X"), ("Id", "Y")]) "OfferId" = some "X") ∧
    (dictGet [("Id", "Y")] "OfferId" = none ∧
      dictGet (normalizeItem [("Id", "Y")]) "OfferId" = some "Y" ∧
      dictGet (normalizeItem [("Id", "Y")]) "Id" = some "Y") := by
  have h1 := (c10_offerid_precedence [("OfferId", "X"), ("Id", "Y")]).1 "X" (by decide)
  have h2 := (c10_offerid_precedence [("Id", "Y")]).2 (by decide) "Y" (by decide)
  exact ⟨⟨by decide, h1.1, h1.2⟩, ⟨by decide, h2.1, h2.2⟩⟩

/-! ## Retry-loop lemmas (C4, C5) -/

/-- Under an always-rate-limited responder the retry loop runs off its
fuel deterministically. -/
theorem runBatchGo_rateLimited (respond : Nat → Resp) (jit : Nat → ℚ)
    (h : ∀ n, respond n = Resp.rateLimited) :
    ∀ fuel attempt delay sleeps,
      (runBatchGo respond jit fuel attempt delay sleeps).completed = false ∧
      (runBatchGo respond jit fuel attempt delay sleeps).attempts = attempt + fuel + 1 ∧
      (runBatchGo respond jit fuel attempt delay sleeps).sleeps.length =
        sleeps.length + fuel ∧
      (runBatchGo respond jit fuel attempt delay sleeps).offers = [] := by
  intro fuel
  induction fuel with
  | zero =>
    intro a d s
    simp [runBatchGo, h a]
  | succ f ih =>
    intro a d s
    have step : runBatchGo respond jit (f + 1) a d s =
        runBatchGo respond jit f (a + 1)
          (min MAX_RETRY_DELAY (d * 2) + jit a) (s ++ [d]) := by
      simp [runBatchGo, h a]
    rw [step]
    obtain ⟨h1, h2, h3, h4⟩ := ih (a + 1) (min MAX_RETRY_DELAY (d * 2) + jit a) (s ++ [d])
    refine ⟨h1, by rw [h2]; omega, by rw [h3]; simp; omega, h4⟩

theorem foldl_offers_nil (l : List BatchRes) (hl : ∀ r ∈ l, r.offers = []) :
    ∀ acc, l.foldl (fun a r => a ++ r.offers) acc = acc := by
  induction l with
  | nil => intro acc; rfl
  | cons r rest ih =>
    intro acc
    rw [List.foldl_cons, hl r (List.mem_cons_self r rest), List.append_nil]
    exact ih (fun x hx => hl x (List.mem_cons_of_mem _ hx)) acc

/-- C4: when every request of every batch is answered 429, each batch's
retry loop terminates after exactly `MAX_RETRIES` retries beyond the
initial attempt (`MAX_RETRIES + 1` requests, `MAX_RETRIES` retry
sleeps), the batch is abandoned (`completed = false`, no offers), and
processing still covers every batch (one report per chunk), so
`fetch_detailed_offers` returns with no accumulated offers. -/
theorem c4_batch_retry_termination (ids : List String)
    (respond : Nat → Nat → Resp) (jit : Nat → Nat → ℚ)
    (h : ∀ b n, respond b n = Resp.rateLimited) :
    (∀ r ∈ batchReports ids respond jit,
      r.completed = false ∧ r.attempts = MAX_RETRIES + 1 ∧
      r.sleeps.length = MAX_RETRIES) ∧
    (batchReports ids respond jit).length = (chunks10 ids).length ∧
    fetch_detailed_offers ids respond jit = [] := by
  have key : ∀ b, (runBatch (respond b) (jit b)).completed = false ∧
      (runBatch (respond b) (jit b)).attempts = MAX_RETRIES + 1 ∧
      (runBatch (respond b) (jit b)).sleeps.length = MAX_RETRIES ∧
      (runBatch (respond b) (jit b)).offers = [] := by
    intro b
    have := runBatchGo_rateLimited (respond b) (jit b) (h b)
      MAX_RETRIES 0 INITIAL_RETRY_DELAY []
    unfold runBatch
    refine ⟨this.1, by rw [this.2.1]; omega, by rw [this.2.2.1]; rfl, this.2.2.2⟩
  refine ⟨?_, ?_, ?_⟩
  · intro r hr
    unfold batchReports at hr
    rw [List.mem_map] at hr
    obtain ⟨p, _, rfl⟩ := hr
    exact ⟨(key p.1).1, (key p.1).2.1, (key p.1).2.2.1⟩
  · simp [batchReports]
  · unfold fetch_detailed_offers
    apply foldl_offers_nil
    intro r hr
    unfold batchReports at hr
    rw [List.mem_map] at hr
    obtain ⟨p, _, rfl⟩ := hr
    exact (key p.1).2.2.2

/-- A responder that always answers 429, and zero jitter (used for
concrete instantiations). -/
def alwaysRL2 : Nat → Nat → Resp := fun _ _ => Resp.rateLimited

def zeroJit2 : Nat → Nat → ℚ := fun _ _ => 0

def zeroJit1 : Nat → ℚ := fun _ => 0

/-- Witness for C4: a singleton id list against a responder that always
answers 429. -/
theorem c4_batch_retry_termination_witness :
    (∀ b n, alwaysRL2 b n = Resp.rateLimited) ∧
    ((∀ r ∈ batchReports ["a"] alwaysRL2 zeroJit2,
        r.completed = false ∧ r.attempts = MAX_RETRIES + 1 ∧
        r.sleeps.length = MAX_RETRIES) ∧
      (batchReports ["a"] alwaysRL2 zeroJit2).length = (chunks10 ["a"]).length ∧
      fetch_detailed_offers ["a"] alwaysRL2 zeroJit2 = []) :=
  ⟨fun _ _ => rfl,
   c4_batch_retry_termination ["a"] alwaysRL2 zeroJit2 (fun _ _ => rfl)⟩

/-- C5 counterexample: with every jitter equal to 1 (inside the
documented `random.uniform(0, 1)` range) and an always-429 responder,
the delay used for the fifth retry sleep is 61 seconds, which exceeds
`MAX_RETRY_DELAY = 60` — the cap is applied to the doubled delay before
the jitter is added, and the jitter folded into the stored delay is
itself doubled on the next update. -/
theorem c5_sleep_exceeds_cap :
    (runBatch (fun _ => Resp.rateLimited) (fun _ => (1 : ℚ))).sleeps =
      [5, 11, 23, 47, 61] ∧
    MAX_RETRY_DELAY < 61 := by
  constructor
  · norm_num [runBatch, runBatchGo, MAX_RETRIES, INITIAL_RETRY_DELAY, MAX_RETRY_DELAY]
  · norm_num [MAX_RETRY_DELAY]

/-- The stored retry delay never exceeds `MAX_RETRY_DELAY + 1`, so
neither does any recorded sleep. -/
theorem runBatchGo_sleeps_bound (respond : Nat → Resp) (jit : Nat → ℚ)
    (h : ∀ n, 0 ≤ jit n ∧ jit n ≤ 1) :
    ∀ fuel attempt delay sleeps,
      delay ≤ MAX_RETRY_DELAY + 1 →
      (∀ s ∈ sleeps, s ≤ MAX_RETRY_DELAY + 1) →
      ∀ s ∈ (runBatchGo respond jit fuel attempt delay sleeps).sleeps,
        s ≤ MAX_RETRY_DELAY + 1 := by
  intro fuel
  induction fuel with
  | zero =>
    intro a d sl _ hsl s hs
    unfold runBatchGo at hs
    cases hresp : respond a <;> rw [hresp] at hs <;> exact hsl s hs
  | succ f ih =>
    intro a d sl hd hsl s hs
    unfold runBatchGo at hs
    cases hresp : respond a <;> rw [hresp] at hs
    case ok l => exact hsl s hs
    case okNonList => exact hsl s hs
    all_goals {
      refine ih (a + 1) _ (sl ++ [d]) ?_ ?_ s hs
      · have h1 := (h a).2
        have h2 : min MAX_RETRY_DELAY (d * 2) ≤ MAX_RETRY_DELAY := min_le_left _ _
        linarith
      · intro x hx
        rw [List.mem_append, List.mem_singleton] at hx
        rcases hx with hx | rfl
        · exact hsl x hx
        · exact hd
    }

/-- C5 (amended): each retry sleeps exactly the stored retry-delay
value; that value is updated to `min(MAX_RETRY_DELAY, delay*2) + jitter`
— capped before the jitter is added — so for every jitter sequence in
`[0, 1]` each retry sleep is bounded by `MAX_RETRY_DELAY + 1` (not by
`MAX_RETRY_DELAY`). -/
theorem c5_sleeps_bounded_by_cap_plus_jitter (respond : Nat → Resp)
    (jit : Nat → ℚ) (h : ∀ n, 0 ≤ jit n ∧ jit n ≤ 1) :
    ∀ s ∈ (runBatch respond jit).sleeps, s ≤ MAX_RETRY_DELAY + 1 := by
  unfold runBatch
  apply runBatchGo_sleeps_bound respond jit h MAX_RETRIES 0 INITIAL_RETRY_DELAY []
  · norm_num [INITIAL_RETRY_DELAY, MAX_RETRY_DELAY]
  · intro s hs
    cases hs

/-- Witness for the amended C5 at an always-429 responder and zero
jitter. -/
theorem c5_sleeps_bounded_witness :
    (∀ n, 0 ≤ zeroJit1 n ∧ zeroJit1 n ≤ 1) ∧
    ∀ s ∈ (runBatch (fun _ => Resp.rateLimited) zeroJit1).sleeps,
      s ≤ MAX_RETRY_DELAY + 1 :=
  ⟨fun _ => ⟨le_refl 0, by norm_num [zeroJit1]⟩,
   c5_sleeps_bounded_by_cap_plus_jitter (fun _ => Resp.rateLimited) zeroJit1
     (fun _ => ⟨le_refl 0, by norm_num [zeroJit1]⟩)⟩

/-! ## Append-only lemmas for the seen set (C6) -/

theorem foldl_extend {α : Type} (f : List String → α → List String)
    (hf : ∀ s x, ∃ t, f s x = s ++ t) :
    ∀ (xs : List α) (s : List String), ∃ l, xs.foldl f s = s ++ l := by
  intro xs
  induction xs with
  | nil => intro s; exact ⟨[], by simp⟩
  | cons x rest ih =>
    intro s
    obtain ⟨t, ht⟩ := hf s x
    obtain ⟨l, hl⟩ := ih (f s x)
    exact ⟨t ++ l, by rw [List.foldl_cons, hl, ht, List.append_assoc]⟩

theorem addNew_extend (s : List String) (x : String) : ∃ t, addNew s x = s ++ t := by
  unfold addNew
  split
  · exact ⟨[], by simp⟩
  · exact ⟨[x], rfl⟩

theorem seenSweep_extend (s ids : List String) : ∃ l, seenSweep s ids = s ++ l :=
  foldl_extend addNew addNew_extend ids s

theorem addIdStep_extend (s : List String) (d : Deal) : ∃ t, addIdStep s d = s ++ t := by
  unfold addIdStep
  cases dealIdOf d with
  | none => exact ⟨[], by simp⟩
  | some uid =>
    by_cases h : uid = ""
    · exact ⟨[], by simp [h]⟩
    · obtain ⟨t, ht⟩ := addNew_extend s uid
      exact ⟨t, by simp [h, ht]⟩

theorem addDealIds_extend (s : List String) (ds : List Deal) :
    ∃ l, addDealIds s ds = s ++ l :=
  foldl_extend addIdStep addIdStep_extend ds s

theorem extend_trans {a b c : List String} (h1 : ∃ l, b = a ++ l)
    (h2 : ∃ l, c = b ++ l) : ∃ l, c = a ++ l := by
  obtain ⟨l1, h1⟩ := h1
  obtain ⟨l2, h2⟩ := h2
  exact ⟨l1 ++ l2, by rw [h2, h1, List.append_assoc]⟩

/-- C6: the seen set is append-only — after every run the in-memory
`seen_deals` list is the initial list extended on the right (hence a
superset: no identifier is ever removed), and the single `save` of a
run (when one happens) persists exactly that final list. -/
theorem c6_seen_set_monotonic (seen0 : List String) (feedItems : List Deal)
    (details : Nat → Nat → Nat → Resp) (djit : Nat → Nat → Nat → ℚ)
    (transportOk storeOk : Bool) :
    (∃ l, (check_woot_deals seen0 feedItems details djit transportOk storeOk).seen =
      seen0 ++ l) ∧
    ((check_woot_deals seen0 feedItems details djit transportOk storeOk).saveAttempts = [] ∨
      (check_woot_deals seen0 feedItems details djit transportOk storeOk).saveAttempts =
        [(check_woot_deals seen0 feedItems details djit transportOk storeOk).seen]) := by
  simp only [check_woot_deals]
  split_ifs with h1 h2 h3 h4
  · exact ⟨⟨[], by simp⟩, Or.inl rfl⟩
  · exact ⟨⟨_, rfl⟩, Or.inr rfl⟩
  · refine ⟨?_, Or.inr rfl⟩
    exact extend_trans (seenSweep_extend seen0 _) (seenSweep_extend _ _)
  · exact ⟨⟨[], by simp⟩, Or.inl rfl⟩
  · refine ⟨?_, Or.inr rfl⟩
    exact extend_trans (addDealIds_extend seen0 _) (seenSweep_extend _ _)

/-! ## Concrete fixtures for orchestrator runs -/

/-- A feed item matching the keyword "kindle". -/
def itemA : Deal := [("OfferId", "A"), ("Title", "Kindle Paperwhite")]

/-- Its enriched detail record. -/
def dealA : Deal := [("Id", "A"), ("Title", "Kindle Paperwhite")]

/-- A detail responder that always succeeds with `dealA`. -/
def okRespA : Nat → Nat → Nat → Resp := fun _ _ _ => Resp.ok [dealA]

/-- An always-429 detail responder (orchestrator-level). -/
def alwaysRL3 : Nat → Nat → Nat → Resp := fun _ _ _ => Resp.rateLimited

def zeroJit3 : Nat → Nat → Nat → ℚ := fun _ _ _ => 0

/-! ## C1: notification failure does not prevent the commit -/

/-- C1 (code bug): `send_notifications` wraps the whole SMTP session in
a `try/except` that only logs, so it never raises — consequently, in a
run that found a match and whose notification transport fails
(`transportOk = false`, `sent = false`), `check_woot_deals` still adds
the matched id to `seen_deals`, still calls `save_seen_deals` with the
extended list, and still returns the success outcome, contradicting the
claim (and the source's own comments at `main.py` 960 and 980). -/
theorem c1_failed_notification_still_committed :
    (∀ deals transportOk, (send_notifications deals transportOk).raised = false) ∧
    (send_notifications [dealA] false).sent = false ∧
    check_woot_deals [] [itemA] okRespA zeroJit3 false true =
      ⟨"Found and notified about 1 new deals", ["A"], [["A"]], some [dealA], [dealA]⟩ := by
  refine ⟨?_, rfl, by decide⟩
  intro deals transportOk
  unfold send_notifications
  split_ifs <;> rfl

/-! ## C2: persistence failure is not reported -/

/-- C2 counterexample: with the seen-set store unreachable
(`storeOk = false`, so `save_seen_deals` returns `False`), the run still
returns the success outcome `"Found and notified about 1 new deals"`
instead of reporting failure — the commit was attempted (one save call)
and its result discarded. -/
theorem c2_save_failure_not_reported :
    (check_woot_deals [] [itemA] okRespA zeroJit3 true false).result =
      "Found and notified about 1 new deals" ∧
    (check_woot_deals [] [itemA] okRespA zeroJit3 true false).saveAttempts = [["A"]] ∧
    save_seen_deals false ["A"] = false := by
  refine ⟨by decide, by decide, rfl⟩

/-- C2 (amended): `save_seen_deals` does signal failure by returning
`False`, but `check_woot_deals` discards that return value at every
call site, so the run's entire observable outcome — result string,
notification behavior, seen list, save attempts — is identical whether
or not the store is reachable; detection and notification of matches
happen before the commit step and are unaffected by it. -/
theorem c2_store_outcome_ignored (seen0 : List String) (feedItems : List Deal)
    (details : Nat → Nat → Nat → Resp) (djit : Nat → Nat → Nat → ℚ)
    (transportOk : Bool) :
    (∀ storeOk, check_woot_deals seen0 feedItems details djit transportOk storeOk =
      check_woot_deals seen0 feedItems details djit transportOk true) ∧
    (∀ seen, save_seen_deals false seen = false) :=
  ⟨fun _ => rfl, fun _ => rfl⟩

/-! ## Membership lemmas for the commit paths (C7, C9) -/

theorem mem_addNew {s : List String} {x y : String} (h : y ∈ addNew s x) :
    y ∈ s ∨ y = x := by
  unfold addNew at h
  split_ifs at h
  · exact Or.inl h
  · rw [List.mem_append, List.mem_singleton] at h
    exact h

theorem mem_seenSweep : ∀ (ids s : List String) (y : String),
    y ∈ seenSweep s ids → y ∈ s ∨ y ∈ ids := by
  intro ids
  induction ids with
  | nil => intro s y h; exact Or.inl h
  | cons x rest ih =>
    intro s y h
    unfold seenSweep at h ih
    rw [List.foldl_cons] at h
    rcases ih (addNew s x) y h with h2 | h2
    · rcases mem_addNew h2 with h3 | h3
      · exact Or.inl h3
      · exact Or.inr (by rw [h3]; exact List.mem_cons_self x rest)
    · exact Or.inr (List.mem_cons_of_mem x h2)

theorem mem_addIdStep {acc : List String} {d : Deal} {y : String}
    (h : y ∈ addIdStep acc d) : y ∈ acc ∨ dealIdOf d = some y := by
  unfold addIdStep at h
  cases hid : dealIdOf d <;> simp only [hid] at h
  · exact Or.inl h
  case some uid =>
    split_ifs at h
    · exact Or.inl h
    · rcases mem_addNew h with h2 | h2
      · exact Or.inl h2
      · exact Or.inr (by rw [h2])

theorem mem_addDealIds : ∀ (ds : List Deal) (base : List String) (y : String),
    y ∈ addDealIds base ds → y ∈ base ∨ ∃ d ∈ ds, dealIdOf d = some y := by
  intro ds
  induction ds with
  | nil => intro base y h; exact Or.inl h
  | cons x rest ih =>
    intro base y h
    unfold addDealIds at h ih
    rw [List.foldl_cons] at h
    rcases ih (addIdStep base x) y h with h2 | h2
    · rcases mem_addIdStep h2 with h3 | h3
      · exact Or.inl h3
      · exact Or.inr ⟨x, List.mem_cons_self x rest, h3⟩
    · obtain ⟨d, hd, hid⟩ := h2
      exact Or.inr ⟨d, List.mem_cons_of_mem x hd, hid⟩

theorem mem_filterStep {seen : List String} {acc : List Deal} {deal d : Deal}
    (h : d ∈ filterStep seen acc deal) :
    d ∈ acc ∨ (d = deal ∧ ∃ uid, dealIdOf d = some uid ∧ uid ≠ "" ∧
      uid ∉ seen ∧ is_matching_deal d = true) := by
  unfold filterStep at h
  cases hid : dealIdOf deal <;> simp only [hid] at h
  · exact Or.inl h
  case some uid =>
    split_ifs at h with h1 h2 h3
    · exact Or.inl h
    · exact Or.inl h
    · rw [List.mem_append, List.mem_singleton] at h
      rcases h with h | h
      · exact Or.inl h
      · subst h
        exact Or.inr ⟨rfl, uid, hid, h1, h2, h3⟩
    · exact Or.inl h

theorem mem_foldl_filterStep (seen : List String) :
    ∀ (deals acc : List Deal) (d : Deal),
      d ∈ deals.foldl (filterStep seen) acc →
      d ∈ acc ∨ (d ∈ deals ∧ ∃ uid, dealIdOf d = some uid ∧ uid ≠ "" ∧
        uid ∉ seen ∧ is_matching_deal d = true) := by
  intro deals
  induction deals with
  | nil => intro acc d h; exact Or.inl h
  | cons x rest ih =>
    intro acc d h
    rw [List.foldl_cons] at h
    rcases ih (filterStep seen acc x) d h with h2 | ⟨hmem, hp⟩
    · rcases mem_filterStep h2 with h3 | ⟨heq, hp⟩
      · exact Or.inl h3
      · exact Or.inr ⟨by rw [heq]; exact List.mem_cons_self x rest, hp⟩
    · exact Or.inr ⟨List.mem_cons_of_mem x hmem, hp⟩

/-- Everything `filter_deals` keeps comes from its input and carries a
non-empty identifier, was unseen, and passes the match filter. -/
theorem mem_filter_deals {deals : List Deal} {seen : List String} {d : Deal}
    (h : d ∈ filter_deals deals seen) :
    d ∈ deals ∧ ∃ uid, dealIdOf d = some uid ∧ uid ≠ "" ∧
      uid ∉ seen ∧ is_matching_deal d = true := by
  unfold filter_deals at h
  rcases mem_foldl_filterStep seen deals [] d h with h2 | h2
  · cases h2
  · exact h2

/-- Invariant of the enrichment loop: every matched deal occurs in the
enriched set and satisfies the match-filter guarantees; every processed
id is the resolved id of some enriched record. -/
theorem enrichLoop_inv (seen : List String) (details : Nat → Nat → Nat → Resp)
    (djit : Nat → Nat → Nat → ℚ) (pots : List String) :
    (∀ d ∈ (enrichLoop seen details djit pots).1,
      d ∈ (enrichLoop seen details djit pots).2.2 ∧
      ∃ uid, dealIdOf d = some uid ∧ uid ≠ "" ∧ uid ∉ seen ∧
        is_matching_deal d = true) ∧
    (∀ y ∈ (enrichLoop seen details djit pots).2.1,
      ∃ d ∈ (enrichLoop seen details djit pots).2.2, dealIdOf d = some y) := by
  have main : ∀ (l : List (Nat × List String))
      (init : List Deal × List String × List Deal),
      (∀ d ∈ init.1, d ∈ init.2.2 ∧
        ∃ uid, dealIdOf d = some uid ∧ uid ≠ "" ∧ uid ∉ seen ∧
          is_matching_deal d = true) →
      (∀ y ∈ init.2.1, ∃ d ∈ init.2.2, dealIdOf d = some y) →
      (∀ d ∈ (l.foldl (enrichStep seen details djit) init).1,
        d ∈ (l.foldl (enrichStep seen details djit) init).2.2 ∧
        ∃ uid, dealIdOf d = some uid ∧ uid ≠ "" ∧ uid ∉ seen ∧
          is_matching_deal d = true) ∧
      (∀ y ∈ (l.foldl (enrichStep seen details djit) init).2.1,
        ∃ d ∈ (l.foldl (enrichStep seen details djit) init).2.2,
          dealIdOf d = some y) := by
    intro l
    induction l with
    | nil => intro init h1 h2; exact ⟨h1, h2⟩
    | cons p rest ih =>
      intro init h1 h2
      rw [List.foldl_cons]
      apply ih
      · intro d hd
        unfold enrichStep at hd ⊢
        rw [List.mem_append] at hd
        rcases hd with hd | hd
        · obtain ⟨he, hp⟩ := h1 d hd
          exact ⟨List.mem_append.mpr (Or.inl he), hp⟩
        · obtain ⟨he, hp⟩ := mem_filter_deals hd
          exact ⟨List.mem_append.mpr (Or.inr he), hp⟩
      · intro y hy
        unfold enrichStep at hy ⊢
        rcases mem_addDealIds _ _ _ hy with hy2 | hy2
        · obtain ⟨d, hd, hid⟩ := h2 y hy2
          exact ⟨d, List.mem_append.mpr (Or.inl hd), hid⟩
        · obtain ⟨d, hd, hid⟩ := hy2
          exact ⟨d, List.mem_append.mpr (Or.inr hd), hid⟩
  unfold enrichLoop
  exact main ((chunks10 pots).enum) ([], [], [])
    (fun d hd => absurd hd (List.not_mem_nil d))
    (fun y hy => absurd hy (List.not_mem_nil y))

/-! ## C7: records without a resolvable identifier are dropped -/

/-- A feed item whose id resolves to nothing (or to the empty string,
which is falsy in Python) leaves the prefilter state untouched: the
`continue` at `main.py` 892-893 runs before any bookkeeping. -/
theorem prefilterStep_skip (seen : List String) (st : List String × List String)
    (item : Deal) (h : feedIdOf item = none ∨ feedIdOf item = some "") :
    prefilterStep seen st item = st := by
  unfold prefilterStep
  rcases h with h | h <;> simp [h]

/-- Every deal handed to `send_notifications` by a run has a resolvable,
non-empty identifier (it went through `filter_deals`). -/
theorem notified_deals_have_ids (seen0 : List String) (feedItems : List Deal)
    (details : Nat → Nat → Nat → Resp) (djit : Nat → Nat → Nat → ℚ)
    (transportOk storeOk : Bool) :
    (((check_woot_deals seen0 feedItems details djit transportOk
        storeOk).notified.getD []).all hasRealId) = true := by
  simp only [check_woot_deals]
  split_ifs with h1 h2 h3 h4 <;> try rfl
  all_goals {
    rw [List.all_eq_true]
    intro d hd
    obtain ⟨_, uid, hid, hne, _, _⟩ :=
      ((enrichLoop_inv seen0 details djit
        (prefilterFeed seen0 feedItems).2).1 d (by simpa using hd))
    unfold hasRealId
    rw [hid]
    simpa [bne_iff_ne] using hne
  }

/-- C7: a record lacking a resolvable identifier is dropped before any
further processing — inserting such an item anywhere into a (non-empty)
feed leaves the entire run outcome unchanged (so it contributes nothing
to any commit path), and every record in the matched results passed to
notification carries a resolvable non-empty identifier. -/
theorem c7_unresolvable_records_dropped (seen0 : List String)
    (pre post : List Deal) (item : Deal)
    (details : Nat → Nat → Nat → Resp) (djit : Nat → Nat → Nat → ℚ)
    (transportOk storeOk : Bool)
    (hid : feedIdOf item = none ∨ feedIdOf item = some "")
    (hne : pre ++ post ≠ []) :
    check_woot_deals seen0 (pre ++ item :: post) details djit transportOk storeOk =
      check_woot_deals seen0 (pre ++ post) details djit transportOk storeOk ∧
    (((check_woot_deals seen0 (pre ++ post) details djit transportOk
        storeOk).notified.getD []).all hasRealId) = true := by
  refine ⟨?_, notified_deals_have_ids _ _ _ _ _ _⟩
  have hpf : prefilterFeed seen0 (pre ++ item :: post) =
      prefilterFeed seen0 (pre ++ post) := by
    unfold prefilterFeed
    rw [List.foldl_append, List.foldl_append, List.foldl_cons,
      prefilterStep_skip seen0 _ item hid]
  have he1 : (pre ++ item :: post).isEmpty = false := by
    simp
  have he2 : (pre ++ post).isEmpty = false := by
    rw [List.isEmpty_eq_false]
    exact hne
  simp only [check_woot_deals, hpf, he1, he2]

/-- Witness for C7: a title-only item with no identifier fields,
inserted after a matching item. -/
theorem c7_unresolvable_records_dropped_witness :
    ((feedIdOf [("Title", "kindle")] = none ∨
        feedIdOf [("Title", "kindle")] = some "") ∧
      [itemA] ++ ([] : List Deal) ≠ []) ∧
    (check_woot_deals [] ([itemA] ++ [("Title", "kindle")] :: [])
        okRespA zeroJit3 true true =
      check_woot_deals [] ([itemA] ++ []) okRespA zeroJit3 true true ∧
    (((check_woot_deals [] ([itemA] ++ []) okRespA zeroJit3 true
        true).notified.getD []).all hasRealId) = true) :=
  ⟨⟨Or.inl rfl, by simp⟩,
   c7_unresolvable_records_dropped [] [itemA] [] [("Title", "kindle")]
     okRespA zeroJit3 true true (Or.inl rfl) (by simp)⟩

/-! ## C9: abandoned batches and the seen set -/

/-- C9 counterexample: `itemA` is a prefilter candidate whose only
detail batch is abandoned (always-429 responder), so the enriched set
is empty — yet the run's no-match sweep over `all_offer_ids`
(`main.py` 991-993) still adds its id "A" to `seen_deals` and persists
it, contradicting the claim that such ids are not added by any commit
path of the run. -/
theorem c9_abandoned_candidate_swept_into_seen :
    (check_woot_deals [] [itemA] alwaysRL3 zeroJit3 true true).enriched = [] ∧
    (check_woot_deals [] [itemA] alwaysRL3 zeroJit3 true true).seen = ["A"] ∧
    (check_woot_deals [] [itemA] alwaysRL3 zeroJit3 true true).saveAttempts =
      [["A"]] := by
  exact ⟨by decide, by decide, by decide⟩

/-- C9 (amended): in a run that ends in the matched commit path
(notification was invoked, i.e. at least one match was found), an
identifier that was not already seen and that no enriched record
resolves to — in particular any candidate of an abandoned batch — is
not added to the seen set; only the no-match path's final sweep over
all feed ids (`main.py` 991-993) can mark abandoned candidates seen. -/
theorem c9_abandoned_not_committed_on_matched_path (seen0 : List String)
    (feedItems : List Deal) (details : Nat → Nat → Nat → Resp)
    (djit : Nat → Nat → Nat → ℚ) (transportOk storeOk : Bool) (c : String)
    (hn : (check_woot_deals seen0 feedItems details djit transportOk
      storeOk).notified.isSome = true)
    (hc : c ∉ seen0)
    (he : ∀ d ∈ (check_woot_deals seen0 feedItems details djit transportOk
      storeOk).enriched, ¬ dealIdOf d = some c) :
    c ∉ (check_woot_deals seen0 feedItems details djit transportOk
      storeOk).seen := by
  simp only [check_woot_deals] at hn he ⊢
  split_ifs at hn he ⊢ with h1 h2 h3 h4
  · simp at hn
  · simp at hn
  · simp at hn
  · exact hc
  · intro hmem
    simp only at hmem he
    rcases mem_seenSweep _ _ _ hmem with hmem2 | hmem2
    · rcases mem_addDealIds _ _ _ hmem2 with hmem3 | ⟨d, hd, hdc⟩
      · exact hc hmem3
      · obtain ⟨henr, _⟩ :=
          (enrichLoop_inv seen0 details djit (prefilterFeed seen0 feedItems).2).1 d hd
        exact he d henr hdc
    · obtain ⟨d, hd, hdc⟩ :=
        (enrichLoop_inv seen0 details djit (prefilterFeed seen0 feedItems).2).2 c hmem2
      exact he d hd hdc

/-- Eleven one-keyword feed items: ids k1..k11, so the candidates split
into a full chunk of ten and a second chunk holding k11 alone. -/
def kItem (n : Nat) : Deal := [("OfferId", "k" ++ toString n), ("Title", "kindle")]

def kDeal (n : Nat) : Deal := [("Id", "k" ++ toString n), ("Title", "kindle")]

def feed11 : List Deal := (List.range 11).map (fun n => kItem (n + 1))

def deals10 : List Deal := (List.range 10).map (fun n => kDeal (n + 1))

/-- Batch 0 (k1..k10) succeeds; batch 1 (k11) is always rate-limited
and therefore abandoned. -/
def resp11 : Nat → Nat → Nat → Resp :=
  fun b _ _ => if b = 0 then Resp.ok deals10 else Resp.rateLimited

/-- Witness for the amended C9: the k11 batch is abandoned while the
run commits through the matched path; k11 stays out of the seen set. -/
theorem c9_abandoned_not_committed_witness :
    ((check_woot_deals [] feed11 resp11 zeroJit3 true true).notified.isSome = true ∧
      "k11" ∉ ([] : List String) ∧
      (∀ d ∈ (check_woot_deals [] feed11 resp11 zeroJit3 true true).enriched,
        ¬ dealIdOf d = some "k11")) ∧
    "k11" ∉ (check_woot_deals [] feed11 resp11 zeroJit3 true true).seen :=
  ⟨⟨by decide, by simp, by decide⟩,
   c9_abandoned_not_committed_on_matched_path [] feed11 resp11 zeroJit3 true true
     "k11" (by decide) (by simp) (by decide)⟩

/-! ## C8: feed pagination failure behavior -/

/-- Page 1 succeeds with one item and reports two pages; page 2 raises. -/
def pageExcAt2 : Nat → PageResult :=
  fun p => if p = 1 then .ok (some 2) (some [itemA]) else .exc

/-- Same, but page 2 answers with a non-200 status instead. -/
def pageErrAt2 : Nat → PageResult :=
  fun p => if p = 1 then .ok (some 2) (some [itemA]) else .httpError

/-- C8 counterexample: a non-200 on page 2 returns the items
accumulated from page 1, but an exception on page 2 makes `fetch_feed`
return the empty list — the accumulated page-1 items are discarded, not
returned, contradicting the claim for the exception case. -/
theorem c8_exception_discards_accumulated :
    fetch_feed pageExcAt2 10 = [] ∧
    fetch_feed pageErrAt2 10 = [normalizeItem itemA] ∧
    ([] : List Deal) ≠ [normalizeItem itemA] := by
  exact ⟨by decide, by decide, by decide⟩

/-- C8 (amended): `fetch_feed` keeps requesting pages until the
discovered total is reached; a non-success response stops fetching and
returns what was accumulated, while an exception is caught by the
function-level handler and returns the empty list, discarding the
accumulation; a hard failure on page 1 therefore yields an empty
sequence either way, and the orchestrator treats an empty feed as
"nothing to do", returning the no-feed-items outcome. -/
theorem c8_page_failure_behavior (pages : Nat → PageResult)
    (fuel current total : Nat) (acc : List Deal) (seen0 : List String)
    (details : Nat → Nat → Nat → Resp) (djit : Nat → Nat → Nat → ℚ)
    (transportOk storeOk : Bool) (hct : current ≤ total) :
    (pages current = PageResult.httpError →
      feedGo pages (fuel + 1) current total acc = acc) ∧
    (pages current = PageResult.exc →
      feedGo pages (fuel + 1) current total acc = []) ∧
    (check_woot_deals seen0 [] details djit transportOk storeOk).result =
      "No feed items found" := by
  refine ⟨?_, ?_, rfl⟩
  · intro h
    unfold feedGo
    rw [if_neg (by omega)]
    rw [h]
  · intro h
    unfold feedGo
    rw [if_neg (by omega)]
    rw [h]

/-- Witness for the amended C8, at page 2 of a two-page feed with one
page-1 item already accumulated. -/
theorem c8_page_failure_behavior_witness :
    (2 ≤ 2) ∧
    ((pageErrAt2 2 = PageResult.httpError →
        feedGo pageErrAt2 4 2 2 [normalizeItem itemA] = [normalizeItem itemA]) ∧
      (pageErrAt2 2 = PageResult.exc →
        feedGo pageErrAt2 4 2 2 [normalizeItem itemA] = []) ∧
      (check_woot_deals [] [] okRespA zeroJit3 true true).result =
        "No feed items found") :=
  ⟨le_refl 2,
   c8_page_failure_behavior pageErrAt2 3 2 2 [normalizeItem itemA] []
     okRespA zeroJit3 true true (le_refl 2)⟩

end WootDeals
